import Mathlib

/-!
Verification of the upmix rendering-pipeline orchestrator
(`scripts/upmix.py`).

The script is a one-shot batch job: a fixed, linear sequence of external
commands, each executed through `run`, which asserts that the command
exited with status 0.  We embed the script shallowly:

* a command is its literal shell string (the strings below are copied
  verbatim from `scripts/upmix.py`);
* the environment is a function `String → Nat` giving the exit status
  `os.system` returns for each command;
* `runStages` executes a list of stages in order, recording the invoked
  commands (the trace), threading an artifact store, and stopping at the
  first non-zero status, exactly as the chain of `run(...)` calls does
  (a failed `assert` raises `AssertionError`, so nothing after it runs);
* `upmix` is the whole script: the two build stages, then the read of
  `sys.argv[1]` (an `IndexError` when absent), then the main pipeline,
  then `sys.exit(0)`.

An uncaught Python exception (`AssertionError` from `run`, or the
`IndexError` from `sys.argv[1]`) makes the interpreter exit with code 1;
`exitCode` reflects that.
-/

namespace Upmix

/-- Line 31 of the script: configure the build tree. -/
def cmakeCmd : String := "(cd build; cmake -DCMAKE_BUILD_TYPE=release ..)"

/-- Line 32: build the native processing executables. -/
def makeCmd : String := "(cd build; make -j 55)"

/-- Line 36: stage the source recording.  The command is built by literal
string concatenation around the user-supplied path, exactly as in
`run('cp "' + file + '" /tmp/input.wav')`. -/
def cpCmd (file : String) : String := "cp \x22" ++ file ++ "\x22 /tmp/input.wav"

/-- Line 38: prepare the input (bit depth, gain, rate, trim window). -/
def soxPrepCmd : String :=
  "sox /tmp/input.wav -b 24 /tmp/down-dry.wav gain -10 rate 48k trim 0 8"

/-- Line 40: the external spatial-synthesis process. -/
def revolveCmd : String := "./build/revolve /tmp/down-dry.wav /tmp/16speakers.wav"

/-- The 20 output-channel tokens of the `remix` effect on line 50, in
order: `0` is an explicitly silent output channel, `NvG` routes input
channel `N` at gain `G`. -/
def remixTokens : List String :=
  ["0", "0", "1v1", "2v1", "3v1", "4v1", "5v1", "6v1", "7v1", "8v1",
   "0", "0", "9v1.0", "10v1.0", "11v1.0", "12v1.0", "13v1.0", "14v1.0",
   "15v1.0", "16v1.0"]

/-- Line 50: the channel remap stage. -/
def remixCmd : String :=
  "sox /tmp/16speakers.wav -e float -b 32 /tmp/down3-20.wav remix "
    ++ String.intercalate " " remixTokens

/-- Line 52: the external driver-correction process. -/
def driverCmd : String := "./build/driver_model /tmp/down3-20.wav /tmp/down3-mod.wav"

/-- Line 54: tonal shaping and loudness normalization. -/
def normCmd : String :=
  "sox /tmp/down3-mod.wav -b 24 /tmp/down3-norm.wav treble -3 10000 norm -32"

/-- Line 56: per-channel output gains of the hardware calibration profile. -/
def amixerVolCmd : String :=
  "amixer --card 3 cset numid=3,iface=MIXER,name=\x27UMC1820 Output Playback Volume\x27 127,127,127,127,127,127,127,127,122,122,122,122,122,122,122,122"

/-- Line 57: per-channel enable switches of the hardware calibration profile. -/
def amixerSwCmd : String :=
  "amixer --card 3 cset numid=1,iface=MIXER,name=\x27UMC1820 Output Playback Switch\x27 on,on,on,on,on,on,on,on,on,on,on,on,on,on,on,on"

/-- Line 59: playback through the physical interface. -/
def aplayCmd : String := "aplay -D \x27hw:CARD=UMC1820,DEV=0\x27 /tmp/down3-norm.wav"

/-- Artifact locations named in the commands above. -/
def inputWav : String := "/tmp/input.wav"

def downDryWav : String := "/tmp/down-dry.wav"

def speakers16Wav : String := "/tmp/16speakers.wav"

def down320Wav : String := "/tmp/down3-20.wav"

def down3ModWav : String := "/tmp/down3-mod.wav"

def down3NormWav : String := "/tmp/down3-norm.wav"

/-- A pipeline stage: the command string the script passes to `run`, and
the artifact locations that command writes.  The output locations are
read off the command text on lines 36-59; the fact that each external
tool writes only to its named output file is Modelled from the spec:
each stage "writes one named artifact" and the collaborators write only
the output path they are given (spec sections 2, 4.2 and 6). -/
structure Stage where
  cmd : String
  outs : List String
deriving DecidableEq

/-- Embeds `run` (lines 22-25): `assert 0 == os.system(str)` succeeds
exactly when the status for the command is zero. -/
def run (env : String → Nat) (cmd : String) : Bool := env cmd == 0

/-- The artifact store: each location holds the command that last wrote
it (`none` when nothing wrote there in this model of a run). -/
def Store := String → Option String

/-- Executing one stage overwrites exactly the locations the stage
declares as outputs. -/
def applyStage (s : Stage) (st : Store) : Store :=
  fun p => if p ∈ s.outs then some s.cmd else st p

/-- Executes stages in order, as the script's straight-line chain of
`run(...)` calls does.  Returns the trace of invoked commands, the final
artifact store, and `some c` when command `c` was the first to exit
non-zero (its `assert` then raises, so no later stage runs). -/
def runStages (env : String → Nat) : List Stage → Store → List String × Store × Option String
  | [], st => ([], st, none)
  | s :: rest, st =>
      let st1 := applyStage s st
      if run env s.cmd then
        let (tr, st2, r) := runStages env rest st1
        (s.cmd :: tr, st2, r)
      else
        ([s.cmd], st1, some s.cmd)

/-- The two toolchain build stages (lines 31-32); they write into the
build tree, not into any audio artifact location. -/
def buildStages : List Stage := [⟨cmakeCmd, []⟩, ⟨makeCmd, []⟩]

/-- The main pipeline after `sys.argv[1]` is read (lines 36-59). -/
def mainStages (file : String) : List Stage :=
  [⟨cpCmd file, [inputWav]⟩,
   ⟨soxPrepCmd, [downDryWav]⟩,
   ⟨revolveCmd, [speakers16Wav]⟩,
   ⟨remixCmd, [down320Wav]⟩,
   ⟨driverCmd, [down3ModWav]⟩,
   ⟨normCmd, [down3NormWav]⟩,
   ⟨amixerVolCmd, []⟩,
   ⟨amixerSwCmd, []⟩,
   ⟨aplayCmd, []⟩]

/-- The full stage sequence of one run for a given source path. -/
def upmixStages (file : String) : List Stage := buildStages ++ mainStages file

/-- How a run of the script terminates: `sys.exit 0` on line 62, an
uncaught `AssertionError` from `run` (carrying the failing command,
which `run` printed), or the uncaught `IndexError` from `sys.argv[1]`
on line 34. -/
inductive ScriptResult where
  | exited : Nat → ScriptResult
  | assertionError : String → ScriptResult
  | indexError : ScriptResult
deriving DecidableEq

/-- The process exit code: the argument of `sys.exit` on normal
termination, and 1 for an uncaught Python exception. -/
def exitCode : ScriptResult → Nat
  | .exited n => n
  | .assertionError _ => 1
  | .indexError => 1

/-- The whole script (lines 31-62): build stages, then the read of
`sys.argv[1]`, then the main pipeline, then `sys.exit(0)`.  `argv` is
the full `sys.argv` list (index 0 is the script name). -/
def upmix (env : String → Nat) (argv : List String) (st0 : Store) :
    List String × Store × ScriptResult :=
  let b := runStages env buildStages st0
  match b.2.2 with
  | some c => (b.1, b.2.1, .assertionError c)
  | none =>
      match argv.get? 1 with
      | none => (b.1, b.2.1, .indexError)
      | some file =>
          let m := runStages env (mainStages file) b.2.1
          match m.2.2 with
          | some c => (b.1 ++ m.1, m.2.1, .assertionError c)
          | none => (b.1 ++ m.1, m.2.1, .exited 0)

/-- The stages that precede the first calibration stage (line 56). -/
def stagesBeforeVol (file : String) : List Stage :=
  [⟨cmakeCmd, []⟩, ⟨makeCmd, []⟩, ⟨cpCmd file, [inputWav]⟩,
   ⟨soxPrepCmd, [downDryWav]⟩, ⟨revolveCmd, [speakers16Wav]⟩,
   ⟨remixCmd, [down320Wav]⟩, ⟨driverCmd, [down3ModWav]⟩,
   ⟨normCmd, [down3NormWav]⟩]

/-- The stages that precede the second calibration stage (line 57). -/
def stagesBeforeSw (file : String) : List Stage :=
  stagesBeforeVol file ++ [⟨amixerVolCmd, []⟩]

/-- The artifact store left behind by invoking every stage of `l` in
order, successful or not. -/
def foldStore (st : Store) (l : List Stage) : Store :=
  l.foldl (fun st s => applyStage s st) st

/-- The declared output locations of the eleven stages, in pipeline
order (they do not depend on the source path). -/
def outsList : List (List String) :=
  [[], [], [inputWav], [downDryWav], [speakers16Wav], [down320Wav],
   [down3ModWav], [down3NormWav], [], [], []]

/-- Splits a character list at every occurrence of a separator. -/
def splitOnChar (sep : Char) : List Char → List (List Char)
  | [] => [[]]
  | c :: cs =>
      let r := splitOnChar sep cs
      if c = sep then [] :: r
      else
        match r with
        | [] => [[c]]
        | w :: ws => (c :: w) :: ws

/-- Numeric value of a decimal digit character. -/
def digitVal (c : Char) : Option Nat :=
  if c.isDigit then some (c.toNat - 48) else none

def parseNatAux : List Char → Nat → Option Nat
  | [], acc => some acc
  | c :: cs, acc =>
      match digitVal c with
      | none => none
      | some d => parseNatAux cs (acc * 10 + d)

/-- Parses a non-empty all-digit character list as a natural number. -/
def parseNat : List Char → Option Nat
  | [] => none
  | l => parseNatAux l 0

/-- Parses a sox volume literal (digits with an optional fractional
part, as in `1` or `1.0`) into raw form: integer part, fractional
numerator, and number of fractional digits. -/
def parseVolRaw (l : List Char) : Option (Nat × Nat × Nat) :=
  match splitOnChar '.' l with
  | [a] => (parseNat a).map (fun n => (n, 0, 0))
  | [a, b] =>
      match parseNat a, parseNat b with
      | some n, some f => some (n, f, b.length)
      | _, _ => none
  | _ => none

/-- The rational gain a raw volume literal denotes. -/
def volValue (v : Nat × Nat × Nat) : ℚ :=
  (v.1 : ℚ) + (v.2.1 : ℚ) / (10 : ℚ) ^ v.2.2

/-- Parses one output-channel token of the sox `remix` effect as used on
line 50: `0` is an explicitly silent destination (no entries), `N`
routes input channel `N` at unity gain, and `NvG` routes input channel
`N` at gain `G` (gain kept in raw form).  The result is the
destination's list of (source channel, raw gain) entries. -/
def parseRemixTokenRaw (s : String) : Option (List (Nat × (Nat × Nat × Nat))) :=
  match splitOnChar 'v' s.data with
  | [a] =>
      if a = ['0'] then some []
      else (parseNat a).map (fun n => [(n, (1, 0, 0))])
  | [a, g] =>
      match parseNat a, parseVolRaw g with
      | some n, some v => some [(n, v)]
      | _, _ => none
  | _ => none

/-- A raw-gain matrix with its gains evaluated to rationals. -/
def matrixValue (m : List (List (Nat × (Nat × Nat × Nat)))) :
    List (List (Nat × ℚ)) :=
  m.map (fun es => es.map (fun e => (e.1, volValue e.2)))

/-- What the 20 remix tokens of line 50 parse to, gains in raw form;
`codeMatrixRaw_parses` below checks this against the command string. -/
def codeMatrixRaw : List (List (Nat × (Nat × Nat × Nat))) :=
  [[], [], [(1, (1, 0, 0))], [(2, (1, 0, 0))], [(3, (1, 0, 0))],
   [(4, (1, 0, 0))], [(5, (1, 0, 0))], [(6, (1, 0, 0))], [(7, (1, 0, 0))],
   [(8, (1, 0, 0))], [], [], [(9, (1, 0, 1))], [(10, (1, 0, 1))],
   [(11, (1, 0, 1))], [(12, (1, 0, 1))], [(13, (1, 0, 1))],
   [(14, (1, 0, 1))], [(15, (1, 0, 1))], [(16, (1, 0, 1))]]

/-- The remap matrix of line 50, destination by destination (the d-th
list holds the (source, gain) entries feeding output channel d, sources
1-based as in sox).  `codeMatrix_value` below checks that this is the
value of what the remix tokens of the command string denote. -/
def codeMatrix : List (List (Nat × ℚ)) :=
  [[], [], [(1, 1)], [(2, 1)], [(3, 1)], [(4, 1)], [(5, 1)], [(6, 1)],
   [(7, 1)], [(8, 1)], [], [], [(9, 1)], [(10, 1)], [(11, 1)], [(12, 1)],
   [(13, 1)], [(14, 1)], [(15, 1)], [(16, 1)]]

/-- Modelled from the spec: the Channel Remap Matrix contract
(section 4.3).  For each destination channel d (1-based here, matching
the order of the remix tokens) the output sample at time t is the sum
over all entries (source, gain) targeting d of gain times the input's
sample of that source channel at t; a destination with no entries is
silence.  The remix effect itself runs inside the external
audio-transform tool, so its sample-level semantics is not in the
script. -/
def applyRemix (m : List (List (Nat × ℚ))) (inp : Nat → Nat → ℚ) :
    Nat → Nat → ℚ :=
  fun d t => (((m.get? (d - 1)).getD []).map (fun e => e.2 * inp e.1 t)).sum

/-- The number of output channels a remap matrix produces. -/
def outChannels (m : List (List (Nat × ℚ))) : Nat := m.length

/-- All (source, destination) pairs of a matrix, destinations numbered
by position. -/
def matrixPairs (m : List (List (Nat × ℚ))) : List (Nat × Nat) :=
  (m.enum.map (fun de => de.2.map (fun e => (e.1, de.1)))).flatten

/-- The section-3 invariant on a remap matrix over N source channels
(sources 1-based): every source index used is one of the N synthesis
channels, and no (source, destination) pair appears twice. -/
def validMatrix (N : Nat) (m : List (List (Nat × ℚ))) : Bool :=
  m.all (fun es => es.all (fun e => decide (1 ≤ e.1) && decide (e.1 ≤ N))) &&
    decide (matrixPairs m).Nodup

/-- A remix command whose matrix references source channel 17 of a
16-channel synthesis output; used to exhibit the absence of
construction-time validation. -/
def badRemixCmd : String :=
  "sox /tmp/16speakers.wav -e float -b 32 /tmp/down3-20.wav remix 17v1"

/-- An audio artifact: format metadata, accumulated gain trim in
decibels (tracked symbolically, since the decibel-to-amplitude factor is
irrational), and sample content as a function of (1-based) channel and
time in seconds. -/
structure Audio where
  channels : Nat
  bits : Nat
  rate : Nat
  dur : ℚ
  gainDb : ℚ
  sample : Nat → ℚ → ℚ

/-- Modelled from the spec: the effect of the prepare-input invocation
(line 38) `sox /tmp/input.wav -b 24 /tmp/down-dry.wav gain -10 rate 48k
trim 0 8` under the generic audio-transform collaborator contract
(section 6): convert to 24-bit depth, apply a -10 dB input gain trim,
resample to 48 kHz, and keep only the time window from 0 to 8 seconds;
the command has no channel-count effect, so the channel count is
unchanged. -/
def soxPrepareInput (a : Audio) : Audio :=
  { channels := a.channels
    bits := 24
    rate := 48000
    dur := min a.dur 8
    gainDb := a.gainDb - 10
    sample := fun c t => if t < 8 then a.sample c t else 0 }

/-- The backtick character, which introduces command substitution. -/
def bqChar : Char := Char.ofNat 96

/-- Whether a character triggers shell expansion (command or parameter
substitution); both are active inside double quotes as well as
outside. -/
def expChar (c : Char) : Bool := c = '$' || c = bqChar

/-- The characters that keep a special meaning to the shell inside a
double-quoted string: the closing quote, the two expansion introducers,
and the backslash. -/
def shSpecial (c : Char) : Bool :=
  c = '\x22' || c = '$' || c = bqChar || c = '\\'

/-- A shell token: a word (its accumulated characters, and a flag that
is true when the word contains an unresolved expansion, so its executed
form is not its literal text), or the command separator `;`. -/
inductive ShTok where
  | word : List Char → Bool → ShTok
  | semi : ShTok
deriving DecidableEq

/-- Tokenizer state machine for the fragment of POSIX shell syntax that
`os.system` (line 24) exposes to the concatenated command strings of the
script: whitespace word-splitting, double-quote grouping, the semicolon
command separator, the expansion characters `$` and backtick (active
inside double quotes too; they mark the current word as expanded rather
than literal), and the backslash (inside double quotes it escapes only
`$`, backtick, the double quote and itself, and is otherwise literal;
outside quotes it makes the next character literal; a trailing
backslash is dropped).  `q` says whether we are inside double quotes,
`e` whether the previous character was a still-unprocessed backslash,
and `cur` is the word accumulated so far with its expansion flag
(`some ([], false)` is a started, still-empty word, as after
`\x22\x22`); an unterminated quote is a parse error. -/
def shTokensAux : List Char → Bool → Bool → Option (List Char × Bool) → Option (List ShTok)
  | [], q, _, cur =>
      if q then none
      else
        match cur with
        | none => some []
        | some w => some [ShTok.word w.1 w.2]
  | c :: cs, q, e, cur =>
      if e then
        if q then
          if shSpecial c then
            shTokensAux cs true false
              (some ((cur.getD ([], false)).1 ++ [c], (cur.getD ([], false)).2))
          else
            shTokensAux cs true false
              (some ((cur.getD ([], false)).1 ++ ['\\', c],
                (cur.getD ([], false)).2))
        else
          shTokensAux cs false false
            (some ((cur.getD ([], false)).1 ++ [c], (cur.getD ([], false)).2))
      else if q then
        if c = '\x22' then shTokensAux cs false false cur
        else if expChar c then
          shTokensAux cs true false (some ((cur.getD ([], false)).1 ++ [c], true))
        else if c = '\\' then shTokensAux cs true true cur
        else
          shTokensAux cs true false
            (some ((cur.getD ([], false)).1 ++ [c], (cur.getD ([], false)).2))
      else
        if c = ' ' then
          match cur with
          | none => shTokensAux cs false false none
          | some w =>
              (shTokensAux cs false false none).map
                (fun ts => ShTok.word w.1 w.2 :: ts)
        else if c = ';' then
          match cur with
          | none =>
              (shTokensAux cs false false none).map (fun ts => ShTok.semi :: ts)
          | some w =>
              (shTokensAux cs false false none).map
                (fun ts => ShTok.word w.1 w.2 :: ShTok.semi :: ts)
        else if c = '\x22' then
          shTokensAux cs true false (some (cur.getD ([], false)))
        else if expChar c then
          shTokensAux cs false false (some ((cur.getD ([], false)).1 ++ [c], true))
        else if c = '\\' then shTokensAux cs false true (some (cur.getD ([], false)))
        else
          shTokensAux cs false false
            (some ((cur.getD ([], false)).1 ++ [c], (cur.getD ([], false)).2))

/-- Groups a token list into commands, splitting at each semicolon. -/
def splitSemis : List ShTok → List (List (List Char × Bool))
  | [] => [[]]
  | ShTok.semi :: ts => [] :: splitSemis ts
  | ShTok.word w b :: ts =>
      match splitSemis ts with
      | [] => [[(w, b)]]
      | g :: gs => ((w, b) :: g) :: gs

/-- The command structure the shell gives to a command string: the list
of commands (split at unquoted semicolons), each a list of words paired
with their expansion flag, or `none` on a parse error.  A word whose
flag is false is passed to the command literally; a true flag means the
shell substitutes it before execution. -/
def shellParse (s : String) : Option (List (List (String × Bool))) :=
  (shTokensAux s.data false false none).map
    (fun ts =>
      ((splitSemis ts).filter (fun g => !g.isEmpty)).map
        (fun g => g.map (fun w => (String.mk w.1, w.2))))

theorem foldStore_nil (st : Store) : foldStore st [] = st := rfl

theorem foldStore_cons (st : Store) (s : Stage) (l : List Stage) :
    foldStore st (s :: l) = foldStore (applyStage s st) l := rfl

theorem runStages_all_ok (env : String → Nat) (l : List Stage) (st : Store)
    (h : ∀ s ∈ l, env s.cmd = 0) :
    runStages env l st = (l.map (·.cmd), foldStore st l, none) := by
  induction l generalizing st with
  | nil => rfl
  | cons s rest ih =>
      have hs : env s.cmd = 0 := h s (by simp)
      simp only [runStages, run, hs, beq_self_eq_true, if_true,
        ih (applyStage s st) (fun x hx => h x (by simp [hx])),
        List.map_cons, foldStore_cons]

theorem runStages_first_fail (env : String → Nat) (l : List Stage) (st : Store)
    (k : Nat) (hk : k < l.length)
    (hok : ∀ j (hj : j < k), env (l.get ⟨j, hj.trans hk⟩).cmd = 0)
    (hfail : env (l.get ⟨k, hk⟩).cmd ≠ 0) :
    runStages env l st =
      ((l.take (k + 1)).map (·.cmd), foldStore st (l.take (k + 1)),
       some (l.get ⟨k, hk⟩).cmd) := by
  induction l generalizing st k with
  | nil => exact absurd hk (by simp)
  | cons s rest ih =>
      cases k with
      | zero =>
          have hs : (env s.cmd == 0) = false := by
            simpa using hfail
          simp [runStages, run, hs, foldStore_cons, foldStore_nil]
      | succ k =>
          have hs : env s.cmd = 0 := hok 0 (Nat.succ_pos k)
          have hk2 : k < rest.length := Nat.lt_of_succ_lt_succ hk
          have := ih (applyStage s st) k hk2
            (fun j hj => hok (j + 1) (Nat.succ_lt_succ hj)) hfail
          simp [runStages, run, hs, this, foldStore_cons]

theorem runStages_exists_fail (env : String → Nat) (l : List Stage) (st : Store)
    (h : ∃ s ∈ l, env s.cmd ≠ 0) :
    ∃ c, (runStages env l st).2.2 = some c := by
  induction l generalizing st with
  | nil => simp at h
  | cons s rest ih =>
      by_cases hs : env s.cmd = 0
      · obtain ⟨x, hx, hxne⟩ := h
        rcases List.mem_cons.mp hx with rfl | hx2
        · exact absurd hs hxne
        · have := ih (applyStage s st) ⟨x, hx2, hxne⟩
          simpa [runStages, run, hs] using this
      · refine ⟨s.cmd, ?_⟩
        have hs2 : (env s.cmd == 0) = false := by simpa using hs
        simp [runStages, run, hs2]

theorem runStages_trace_mem (env : String → Nat) (l : List Stage) (st : Store)
    (x : String) (hx : x ∈ (runStages env l st).1) : x ∈ l.map (·.cmd) := by
  induction l generalizing st with
  | nil => simp [runStages] at hx
  | cons s rest ih =>
      by_cases hs : env s.cmd = 0
      · simp only [runStages, run, hs, beq_self_eq_true, if_true] at hx
        rcases List.mem_cons.mp hx with rfl | hx2
        · simp
        · exact List.mem_cons.mpr (Or.inr (ih (applyStage s st) hx2))
      · have hs2 : (env s.cmd == 0) = false := by simpa using hs
        simp only [runStages, run, hs2, Bool.false_eq_true, if_false,
          List.mem_singleton] at hx
        simp [hx]

theorem runStages_trace_stops (env : String → Nat) (l₁ : List Stage)
    (c : Stage) (l₂ : List Stage) (st : Store) (hc : env c.cmd ≠ 0)
    (x : String) (hx : x ∈ (runStages env (l₁ ++ c :: l₂) st).1) :
    x ∈ l₁.map (·.cmd) ++ [c.cmd] := by
  induction l₁ generalizing st with
  | nil =>
      have hc2 : (env c.cmd == 0) = false := by simpa using hc
      simp only [List.nil_append, runStages, run, hc2, Bool.false_eq_true,
        if_false, List.mem_singleton] at hx
      simp [hx]
  | cons s rest ih =>
      by_cases hs : env s.cmd = 0
      · simp only [List.cons_append, runStages, run, hs, beq_self_eq_true,
          if_true] at hx
        rcases List.mem_cons.mp hx with rfl | hx2
        · simp
        · have := ih (applyStage s st) hx2
          simpa using List.mem_cons.mpr (Or.inr this)
      · have hs2 : (env s.cmd == 0) = false := by simpa using hs
        simp only [List.cons_append, runStages, run, hs2, Bool.false_eq_true,
          if_false, List.mem_singleton] at hx
        simp [hx]

theorem runStages_store_frame (env : String → Nat) (l : List Stage) (st : Store)
    (p : String) (hp : ∀ s ∈ l, p ∉ s.outs) :
    (runStages env l st).2.1 p = st p := by
  induction l generalizing st with
  | nil => rfl
  | cons s rest ih =>
      have hsp : applyStage s st p = st p := by
        simp [applyStage, hp s (by simp)]
      by_cases hs : env s.cmd = 0
      · have := ih (applyStage s st) (fun x hx => hp x (by simp [hx]))
        simp only [runStages, run, hs, beq_self_eq_true, if_true]
        simpa [hsp] using this
      · have hs2 : (env s.cmd == 0) = false := by simpa using hs
        simp [runStages, run, hs2, hsp]

theorem runStages_append_fail (env : String → Nat) (l₁ l₂ : List Stage)
    (st : Store) (c : String) (h : (runStages env l₁ st).2.2 = some c) :
    runStages env (l₁ ++ l₂) st = runStages env l₁ st := by
  induction l₁ generalizing st with
  | nil => simp [runStages] at h
  | cons s rest ih =>
      by_cases hs : env s.cmd = 0
      · simp only [List.cons_append, runStages, run, hs, beq_self_eq_true,
          if_true, List.append_eq] at h ⊢
        rw [ih (applyStage s st) (by simpa using h)]
      · have hs2 : (env s.cmd == 0) = false := by simpa using hs
        simp [List.cons_append, runStages, run, hs2]

theorem runStages_append_ok (env : String → Nat) (l₁ l₂ : List Stage)
    (st : Store) (h : (runStages env l₁ st).2.2 = none) :
    runStages env (l₁ ++ l₂) st =
      ((runStages env l₁ st).1 ++ (runStages env l₂ (runStages env l₁ st).2.1).1,
       (runStages env l₂ (runStages env l₁ st).2.1).2) := by
  induction l₁ generalizing st with
  | nil => simp [runStages]
  | cons s rest ih =>
      by_cases hs : env s.cmd = 0
      · simp only [runStages, run, hs, beq_self_eq_true, if_true] at h ⊢
        simp only [List.cons_append, runStages, run, hs, beq_self_eq_true,
          if_true, List.append_eq]
        rw [ih (applyStage s st) (by simpa using h)]
      · have hs2 : (env s.cmd == 0) = false := by simpa using hs
        simp [runStages, run, hs2] at h

theorem upmix_eq (env : String → Nat) (argv : List String) (st0 : Store)
    (file : String) (hargv : argv.get? 1 = some file) :
    upmix env argv st0 =
      ((runStages env (upmixStages file) st0).1,
       (runStages env (upmixStages file) st0).2.1,
       match (runStages env (upmixStages file) st0).2.2 with
       | some c => ScriptResult.assertionError c
       | none => ScriptResult.exited 0) := by
  unfold upmix upmixStages
  cases hb : (runStages env buildStages st0).2.2 with
  | some c =>
      rw [runStages_append_fail env buildStages (mainStages file) st0 c hb]
      simp [hb]
  | none =>
      rw [runStages_append_ok env buildStages (mainStages file) st0 hb]
      simp only [hargv, hb]
      cases hm :
          (runStages env (mainStages file) (runStages env buildStages st0).2.1).2.2 with
      | some c => simp [hm]
      | none => simp [hm]

theorem cpCmd_head (file : String) : (cpCmd file).data.head? = some 'c' := by
  have hlit : "cp \x22".data = ['c', 'p', ' ', '\x22'] := by decide
  have h : (cpCmd file).data =
      "cp \x22".data ++ (file.data ++ "\x22 /tmp/input.wav".data) := by
    simp [cpCmd, String.data_append]
  rw [hlit] at h
  rw [h]
  rfl

theorem aplay_ne_cpCmd (file : String) : aplayCmd ≠ cpCmd file := by
  intro h
  have h2 : aplayCmd.data.head? = (cpCmd file).data.head? := by rw [h]
  rw [cpCmd_head file] at h2
  exact absurd h2 (by decide)

theorem aplay_notin_build_trace (env : String → Nat) (st0 : Store) :
    aplayCmd ∉ (runStages env buildStages st0).1 := by
  intro hmem
  have h := runStages_trace_mem env buildStages st0 aplayCmd hmem
  simp [buildStages] at h
  rcases h with h | h <;> exact absurd h (by decide)

/-- C1: when the k-th stage command of a run exits non-zero and every
earlier stage command exited zero, the script invokes exactly the
commands of stages 0 through k (so no later stage command is ever
invoked), terminates with the AssertionError that surfaces the failing
stage command, and the process exit code is non-zero. -/
theorem C1_fail_fast (env : String → Nat) (argv : List String) (st0 : Store)
    (file : String) (k : Nat) (hargv : argv.get? 1 = some file)
    (hk : k < (upmixStages file).length)
    (hok : ∀ j (hj : j < k), env ((upmixStages file).get ⟨j, hj.trans hk⟩).cmd = 0)
    (hfail : env ((upmixStages file).get ⟨k, hk⟩).cmd ≠ 0) :
    (upmix env argv st0).1 = ((upmixStages file).take (k + 1)).map (·.cmd) ∧
    (upmix env argv st0).2.2 =
      ScriptResult.assertionError ((upmixStages file).get ⟨k, hk⟩).cmd ∧
    exitCode (upmix env argv st0).2.2 ≠ 0 := by
  rw [upmix_eq env argv st0 file hargv,
    runStages_first_fail env (upmixStages file) st0 k hk hok hfail]
  exact ⟨rfl, rfl, by simp [exitCode]⟩

theorem C1_fail_fast_witness :
    (upmix (fun c => if c = cmakeCmd then 1 else 0) ["upmix.py", "x.wav"]
        (fun _ => none)).1 = [cmakeCmd] ∧
    (upmix (fun c => if c = cmakeCmd then 1 else 0) ["upmix.py", "x.wav"]
        (fun _ => none)).2.2 = ScriptResult.assertionError cmakeCmd := by
  have h := C1_fail_fast (fun c => if c = cmakeCmd then 1 else 0)
    ["upmix.py", "x.wav"] (fun _ => none) "x.wav" 0 rfl (by decide)
    (fun j hj => absurd hj (Nat.not_lt_zero j)) (by decide)
  exact ⟨h.1.trans (by decide), h.2.1.trans (by decide)⟩

/-- C9: with no command-line argument, the two toolchain build stages
are still executed (assuming they exit zero), and only afterwards does
the script abort with the uncaught IndexError from `sys.argv[1]`; no
argument validation happens before the first side-effecting stage. -/
theorem C9_builds_before_argv (env : String → Nat) (argv : List String)
    (st0 : Store) (hargv : argv.get? 1 = none)
    (hcmake : env cmakeCmd = 0) (hmake : env makeCmd = 0) :
    (upmix env argv st0).1 = [cmakeCmd, makeCmd] ∧
    (upmix env argv st0).2.2 = ScriptResult.indexError ∧
    exitCode (upmix env argv st0).2.2 ≠ 0 := by
  have hall : ∀ s ∈ buildStages, env s.cmd = 0 := by
    intro s hs
    simp [buildStages] at hs
    rcases hs with rfl | rfl
    · exact hcmake
    · exact hmake
  have hb := runStages_all_ok env buildStages st0 hall
  have hmain : upmix env argv st0 =
      (buildStages.map (·.cmd), foldStore st0 buildStages,
       ScriptResult.indexError) := by
    simp only [upmix, hb, hargv]
  refine ⟨?_, ?_, ?_⟩ <;> rw [hmain]
  · simp [buildStages]
  · simp [exitCode]

theorem C9_builds_before_argv_witness :
    (upmix (fun _ => 0) ["upmix.py"] (fun _ => none)).1 = [cmakeCmd, makeCmd] ∧
    (upmix (fun _ => 0) ["upmix.py"] (fun _ => none)).2.2 =
      ScriptResult.indexError := by
  have h := C9_builds_before_argv (fun _ => 0) ["upmix.py"] (fun _ => none)
    rfl rfl rfl
  exact ⟨h.1, h.2.1⟩

/-- C4 as amended: the process exit code is 0 if and only if every
stage command of the run exited with status zero; when some stage
fails, the exit code is the fixed value 1 (Python terminates on the
uncaught AssertionError), not the failing command's own status. -/
theorem C4_exit_code (env : String → Nat) (argv : List String)
    (st0 : Store) (file : String) (hargv : argv.get? 1 = some file) :
    (exitCode (upmix env argv st0).2.2 = 0 ↔
      ∀ s ∈ upmixStages file, env s.cmd = 0) ∧
    ((∃ s ∈ upmixStages file, env s.cmd ≠ 0) →
      exitCode (upmix env argv st0).2.2 = 1) := by
  rw [upmix_eq env argv st0 file hargv]
  constructor
  · constructor
    · intro h0 s hs
      by_contra hne
      obtain ⟨c, hc⟩ := runStages_exists_fail env (upmixStages file) st0
        ⟨s, hs, hne⟩
      simp only [hc] at h0
      simp [exitCode] at h0
    · intro hall
      rw [runStages_all_ok env (upmixStages file) st0 hall]
      rfl
  · intro hex
    obtain ⟨c, hc⟩ := runStages_exists_fail env (upmixStages file) st0 hex
    simp only [hc]
    rfl

theorem C4_exit_code_witness :
    exitCode (upmix (fun _ => 0) ["upmix.py", "x.wav"] (fun _ => none)).2.2
      = 0 := by
  have h := C4_exit_code (fun _ => 0) ["upmix.py", "x.wav"] (fun _ => none)
    "x.wav" rfl
  exact h.1.mpr (fun s _ => rfl)

/-- C4 counterexample: the first failing stage (cmake) exits with
status 2, yet the process exit code is 1, not 2: the failing command's
status is not propagated, an uncaught AssertionError always gives exit
code 1. -/
theorem C4_counterexample :
    (fun c => if c = cmakeCmd then 2 else 0 : String → Nat) cmakeCmd = 2 ∧
    (upmix (fun c => if c = cmakeCmd then 2 else 0) ["upmix.py", "x.wav"]
        (fun _ => none)).2.2 = ScriptResult.assertionError cmakeCmd ∧
    exitCode (upmix (fun c => if c = cmakeCmd then 2 else 0)
        ["upmix.py", "x.wav"] (fun _ => none)).2.2 = 1 ∧
    (1 : Nat) ≠ 2 := by
  refine ⟨by decide, ?_, ?_, by decide⟩ <;> decide

/-- C5: if either hardware-calibration command (amixer volume or amixer
switch) exits non-zero, the playback command is never invoked and the
run terminates fatally, so playback never happens through a partially
calibrated device. -/
theorem C5_calibration_gate (env : String → Nat) (argv : List String)
    (st0 : Store) (hfail : env amixerVolCmd ≠ 0 ∨ env amixerSwCmd ≠ 0) :
    aplayCmd ∉ (upmix env argv st0).1 ∧
    exitCode (upmix env argv st0).2.2 ≠ 0 := by
  cases hargv : argv.get? 1 with
  | none =>
      cases hb : (runStages env buildStages st0).2.2 with
      | some c =>
          have hval : upmix env argv st0 =
              ((runStages env buildStages st0).1,
               (runStages env buildStages st0).2.1,
               ScriptResult.assertionError c) := by
            simp only [upmix, hb]
          rw [hval]
          exact ⟨aplay_notin_build_trace env st0, by simp [exitCode]⟩
      | none =>
          have hval : upmix env argv st0 =
              ((runStages env buildStages st0).1,
               (runStages env buildStages st0).2.1,
               ScriptResult.indexError) := by
            simp only [upmix, hb, hargv]
          rw [hval]
          exact ⟨aplay_notin_build_trace env st0, by simp [exitCode]⟩
  | some file =>
      rw [upmix_eq env argv st0 file hargv]
      have hexists : ∃ s ∈ upmixStages file, env s.cmd ≠ 0 := by
        rcases hfail with h | h
        · exact ⟨⟨amixerVolCmd, []⟩, by simp [upmixStages, buildStages, mainStages], h⟩
        · exact ⟨⟨amixerSwCmd, []⟩, by simp [upmixStages, buildStages, mainStages], h⟩
      obtain ⟨c, hc⟩ := runStages_exists_fail env (upmixStages file) st0 hexists
      constructor
      · intro hmem
        rcases hfail with h | h
        · have hsplit : upmixStages file =
              stagesBeforeVol file ++ ⟨amixerVolCmd, []⟩ ::
                [⟨amixerSwCmd, []⟩, ⟨aplayCmd, []⟩] := rfl
          have h2 := runStages_trace_stops env (stagesBeforeVol file)
            ⟨amixerVolCmd, []⟩ [⟨amixerSwCmd, []⟩, ⟨aplayCmd, []⟩] st0 h
            aplayCmd (hsplit ▸ hmem)
          simp [stagesBeforeVol] at h2
          rcases h2 with h2 | h2 | h2 | h2 | h2 | h2 | h2 | h2 | h2 <;>
            first
              | exact absurd h2 (aplay_ne_cpCmd file)
              | exact absurd h2 (by decide)
        · have hsplit : upmixStages file =
              stagesBeforeSw file ++ ⟨amixerSwCmd, []⟩ :: [⟨aplayCmd, []⟩] := rfl
          have h2 := runStages_trace_stops env (stagesBeforeSw file)
            ⟨amixerSwCmd, []⟩ [⟨aplayCmd, []⟩] st0 h aplayCmd (hsplit ▸ hmem)
          simp [stagesBeforeSw, stagesBeforeVol] at h2
          rcases h2 with h2 | h2 | h2 | h2 | h2 | h2 | h2 | h2 | h2 | h2 <;>
            first
              | exact absurd h2 (aplay_ne_cpCmd file)
              | exact absurd h2 (by decide)
      · simp only [hc]
        simp [exitCode]

theorem upmixStages_length (file : String) : (upmixStages file).length = 11 := rfl

theorem upmixStages_outs_get (file : String) (i : Nat) (hi : i < 11) :
    ((upmixStages file).get ⟨i, by rw [upmixStages_length]; exact hi⟩).outs
      = outsList.get ⟨i, hi⟩ := by
  interval_cases i <;> rfl

theorem outsList_disjoint : ∀ (i j : Fin 11), i ≠ j →
    ∀ p ∈ outsList.get ⟨i.1, i.2⟩, p ∉ outsList.get ⟨j.1, j.2⟩ := by decide

theorem foldStore_frame (l : List Stage) (st : Store) (p : String)
    (hp : ∀ s ∈ l, p ∉ s.outs) : foldStore st l p = st p := by
  induction l generalizing st with
  | nil => rfl
  | cons s rest ih =>
      rw [foldStore_cons, ih (applyStage s st) (fun x hx => hp x (by simp [hx]))]
      simp [applyStage, hp s (by simp)]

theorem foldStore_last_writer (l : List Stage) (st : Store) (p : String)
    (j : Nat) (hj : j < l.length) (hmem : p ∈ (l.get ⟨j, hj⟩).outs)
    (hlater : ∀ m (hm : m < l.length), j < m → p ∉ (l.get ⟨m, hm⟩).outs) :
    foldStore st l p = some (l.get ⟨j, hj⟩).cmd := by
  induction l generalizing st j with
  | nil => exact absurd hj (by simp)
  | cons s rest ih =>
      cases j with
      | zero =>
          have hrest : ∀ x ∈ rest, p ∉ x.outs := by
            intro x hx
            obtain ⟨⟨m, hm⟩, hxm⟩ := List.mem_iff_get.mp hx
            rw [← hxm]
            exact hlater (m + 1) (Nat.succ_lt_succ hm) (Nat.succ_pos m)
          have hmem2 : p ∈ s.outs := hmem
          rw [foldStore_cons, foldStore_frame rest (applyStage s st) p hrest]
          simp [applyStage, hmem2]
      | succ j =>
          rw [foldStore_cons]
          exact ih (applyStage s st) j (Nat.lt_of_succ_lt_succ hj) hmem
            (fun m hm hjm => hlater (m + 1) (Nat.succ_lt_succ hm)
              (Nat.succ_lt_succ hjm))

theorem get_take_eq (l : List Stage) (n m : Nat) (hm : m < (l.take n).length) :
    (l.take n).get ⟨m, hm⟩ =
      l.get ⟨m, by simp [List.length_take] at hm; omega⟩ := by
  simp [List.get_eq_getElem, List.getElem_take]

/-- C8: when stage k is the first to fail, the final artifact store
assigns to every location written by a strictly earlier stage exactly
the content that stage wrote, and any location that is no stage's
declared output is untouched by the whole run. -/
theorem C8_artifacts_untouched (env : String → Nat) (argv : List String)
    (st0 : Store) (file : String) (k : Nat) (hargv : argv.get? 1 = some file)
    (hk : k < (upmixStages file).length)
    (hok : ∀ j (hj : j < k), env ((upmixStages file).get ⟨j, hj.trans hk⟩).cmd = 0)
    (hfail : env ((upmixStages file).get ⟨k, hk⟩).cmd ≠ 0) :
    (∀ j (hj : j < k) (p : String),
      p ∈ ((upmixStages file).get ⟨j, hj.trans hk⟩).outs →
      (upmix env argv st0).2.1 p =
        some ((upmixStages file).get ⟨j, hj.trans hk⟩).cmd) ∧
    (∀ p : String, (∀ s ∈ upmixStages file, p ∉ s.outs) →
      (upmix env argv st0).2.1 p = st0 p) := by
  rw [upmix_eq env argv st0 file hargv,
    runStages_first_fail env (upmixStages file) st0 k hk hok hfail]
  have hlen11 : (upmixStages file).length = 11 := upmixStages_length file
  constructor
  · intro j hj p hp
    have hjlen : j < ((upmixStages file).take (k + 1)).length := by
      simp [List.length_take]
      omega
    have hres := foldStore_last_writer ((upmixStages file).take (k + 1)) st0 p
      j hjlen ?hmem ?hlater
    case hmem =>
      rw [get_take_eq]
      exact hp
    case hlater =>
      intro m hm hjm
      rw [get_take_eq]
      have hm11 : m < 11 := by
        simp [List.length_take] at hm
        omega
      have hj11 : j < 11 := by omega
      have hdis := outsList_disjoint ⟨j, hj11⟩ ⟨m, hm11⟩
        (by simp [Fin.ext_iff]; omega) p
      rw [← upmixStages_outs_get file j hj11] at hdis
      rw [← upmixStages_outs_get file m hm11] at hdis
      exact hdis hp
    rw [get_take_eq] at hres
    exact hres
  · intro p hp
    exact foldStore_frame ((upmixStages file).take (k + 1)) st0 p
      (fun s hs => hp s (List.take_subset _ _ hs))

theorem C8_artifacts_untouched_witness :
    (upmix (fun c => if c = soxPrepCmd then 1 else 0) ["upmix.py", "x.wav"]
        (fun _ => none)).2.1 inputWav = some (cpCmd "x.wav") := by
  have h := C8_artifacts_untouched (fun c => if c = soxPrepCmd then 1 else 0)
    ["upmix.py", "x.wav"] (fun _ => none) "x.wav" 3 rfl (by decide)
    (by intro j hj; interval_cases j <;> rfl) (by decide)
  have h2 := h.1 2 (by omega) inputWav (by decide)
  exact h2.trans (by decide)

theorem C5_calibration_gate_witness :
    aplayCmd ∉ (upmix (fun c => if c = amixerSwCmd then 1 else 0)
        ["upmix.py", "x.wav"] (fun _ => none)).1 ∧
    exitCode (upmix (fun c => if c = amixerSwCmd then 1 else 0)
        ["upmix.py", "x.wav"] (fun _ => none)).2.2 ≠ 0 :=
  C5_calibration_gate (fun c => if c = amixerSwCmd then 1 else 0)
    ["upmix.py", "x.wav"] (fun _ => none) (Or.inr (by decide))

theorem codeMatrixRaw_parses :
    remixTokens.mapM parseRemixTokenRaw = some codeMatrixRaw := by
  decide

theorem codeMatrix_value : matrixValue codeMatrixRaw = codeMatrix := by
  norm_num [matrixValue, codeMatrixRaw, codeMatrix, volValue]

theorem sum_map_zero (l : List (Nat × ℚ)) :
    (l.map (fun _ => (0 : ℚ))).sum = 0 := by
  induction l <;> simp [*]

/-- C7: for every valid remap matrix, applying the matrix to an
all-silent input yields an all-silent output on every destination
channel; moreover any destination with no entries yields silence for
every input. -/
theorem C7_silent_input (N : Nat) (m : List (List (Nat × ℚ)))
    (inp : Nat → Nat → ℚ) (_hvalid : validMatrix N m = true)
    (hsilent : ∀ c t, inp c t = 0) :
    (∀ d t, applyRemix m inp d t = 0) ∧
    (∀ (inp2 : Nat → Nat → ℚ) d t, (m.get? (d - 1)).getD [] = [] →
      applyRemix m inp2 d t = 0) := by
  constructor
  · intro d t
    simp [applyRemix, hsilent, sum_map_zero]
  · intro inp2 d t h
    simp only [applyRemix, h]
    simp

theorem C7_silent_input_witness :
    validMatrix 16 codeMatrix = true ∧
    applyRemix codeMatrix (fun _ _ => 0) 5 7 = 0 :=
  ⟨by decide,
   (C7_silent_input 16 codeMatrix (fun _ _ => 0) (by decide)
     (fun _ _ => rfl)).1 5 7⟩

/-- C2 counterexample: the remap matrix of line 50 does not have 4
leading silent channels, and output channel 3 (1-indexed) is not zero:
on an all-ones 16-channel input it carries synthesis channel 1, value 1,
where the claim requires channels 1-4 to be exactly zero. -/
theorem C2_counterexample :
    applyRemix codeMatrix (fun _ _ => 1) 3 0 = 1 ∧
    codeMatrix.take 4 ≠ [[], [], [], []] := by
  constructor
  · norm_num [applyRemix, codeMatrix]
  · simp [codeMatrix]

/-- C2 as amended: the remap stage's matrix has 2 leading silent
channels, 8 unity-gain channels fed by synthesis channels 1-8, 2 more
silent channels, then 8 unity-gain channels fed by synthesis channels
9-16.  The output has 20 channels; output channels 1, 2, 11 and 12
(1-indexed) are exactly zero for the full duration, and every other
output channel equals the corresponding synthesis channel. -/
theorem C2_remap (inp : Nat → Nat → ℚ) (t : Nat) :
    outChannels codeMatrix = 20 ∧
    (∀ d, d = 1 ∨ d = 2 ∨ d = 11 ∨ d = 12 → applyRemix codeMatrix inp d t = 0) ∧
    (∀ d, 3 ≤ d → d ≤ 10 → applyRemix codeMatrix inp d t = inp (d - 2) t) ∧
    (∀ d, 13 ≤ d → d ≤ 20 → applyRemix codeMatrix inp d t = inp (d - 4) t) := by
  refine ⟨rfl, ?_, ?_, ?_⟩
  · rintro d (rfl | rfl | rfl | rfl) <;> simp [applyRemix, codeMatrix]
  · intro d h3 h10
    interval_cases d <;> simp [applyRemix, codeMatrix]
  · intro d h13 h20
    interval_cases d <;> simp [applyRemix, codeMatrix]

theorem C2_remap_witness :
    applyRemix codeMatrix (fun c _ => (c : ℚ)) 1 0 = 0 ∧
    applyRemix codeMatrix (fun c _ => (c : ℚ)) 3 0 = 1 := by
  have h := C2_remap (fun c _ => (c : ℚ)) 0
  exact ⟨h.2.1 1 (Or.inl rfl),
    (h.2.2.1 3 (by norm_num) (by norm_num)).trans (by norm_num)⟩

/-- C3 counterexample: a remix token referencing source channel 17 of
the 16-channel synthesis output denotes an invalid matrix, yet nothing
in the script rejects it at construction time: the stage invoker
executes the command carrying it exactly as it executes any other
command, so an invalid matrix would reach the external tool at
runtime. -/
theorem C3_counterexample :
    parseRemixTokenRaw "17v1" = some [(17, (1, 0, 0))] ∧
    matrixValue [[(17, (1, 0, 0))]] = [[(17, 1)]] ∧
    validMatrix 16 [[(17, 1)]] = false ∧
    (runStages (fun _ => 0) [⟨badRemixCmd, [down320Wav]⟩] (fun _ => none)).1
      = [badRemixCmd] := by
  refine ⟨by decide, by norm_num [matrixValue, volValue], by decide, by decide⟩

/-- C3 as amended: the script has no construction-time validation of
the remap matrix: every stage command is executed as given (the stage
invoker inspects nothing).  The single matrix the script actually
constructs, on line 50, does satisfy the invariants: it is exactly what
the remix tokens denote, every source index is in [1, 16], and no
(source, destination) pair repeats. -/
theorem C3_no_validation (s : Stage) (st : Store) :
    (runStages (fun _ => 0) [s] st).1 = [s.cmd] ∧
    remixTokens.mapM parseRemixTokenRaw = some codeMatrixRaw ∧
    matrixValue codeMatrixRaw = codeMatrix ∧
    validMatrix 16 codeMatrix = true := by
  refine ⟨?_, by decide, ?_, by decide⟩
  · simp [runStages, run]
  · norm_num [matrixValue, codeMatrixRaw, codeMatrix, volValue]

/-- C6: for a 2-channel staged source, the prepare-input stage yields an
artifact with exactly 2 channels, 24-bit depth, 48 kHz sample rate, the
-10 dB input gain trim applied, and content restricted to the first 8
seconds (samples at or past 8 seconds are cut, samples inside the window
are kept). -/
theorem C6_prepare_input (a : Audio) (h2 : a.channels = 2) :
    (soxPrepareInput a).channels = 2 ∧
    (soxPrepareInput a).bits = 24 ∧
    (soxPrepareInput a).rate = 48000 ∧
    (soxPrepareInput a).dur = min a.dur 8 ∧
    (soxPrepareInput a).dur ≤ 8 ∧
    (soxPrepareInput a).gainDb = a.gainDb - 10 ∧
    (∀ c t, 8 ≤ t → (soxPrepareInput a).sample c t = 0) ∧
    (∀ c t, t < 8 → (soxPrepareInput a).sample c t = a.sample c t) := by
  refine ⟨by simp [soxPrepareInput, h2], rfl, rfl, rfl,
    min_le_right _ _, rfl, ?_, ?_⟩
  · intro c t ht
    simp [soxPrepareInput, not_lt.mpr ht]
  · intro c t ht
    simp [soxPrepareInput, ht]

theorem shTokensAux_quote_run (cs : List Char)
    (h : ∀ c ∈ cs, shSpecial c = false) (w : List Char) (b : Bool)
    (rest : List Char) :
    shTokensAux (cs ++ rest) true false (some (w, b)) =
      shTokensAux rest true false (some (w ++ cs, b)) := by
  induction cs generalizing w with
  | nil => simp
  | cons c cs ih =>
      obtain ⟨⟨⟨hq, hd⟩, hb⟩, hbs⟩ :
          ((¬c = '\x22' ∧ ¬c = '$') ∧ ¬c = bqChar) ∧ ¬c = '\\' := by
        simpa [shSpecial] using h c (by simp)
      have h2 : ¬(expChar c = true) := by
        simp [expChar, hd, hb]
      simp only [List.cons_append, shTokensAux]
      rw [if_neg Bool.false_ne_true, if_pos trivial, if_neg hq, if_neg h2,
        if_neg hbs]
      simp only [Option.getD_some, List.append_eq]
      rw [ih (fun x hx => h x (by simp [hx])) (w ++ [c])]
      simp

theorem shellParse_cp_literal (file : String)
    (h : ∀ c ∈ file.data, shSpecial c = false) :
    shellParse (cpCmd file) =
      some [[("cp", false), (file, false), ("/tmp/input.wav", false)]] := by
  obtain ⟨fdata⟩ := file
  have hdata : (cpCmd (String.mk fdata)).data =
      'c' :: 'p' :: ' ' :: '\x22' ::
        (fdata ++ ('\x22' :: ' ' :: "/tmp/input.wav".data)) := by
    have h1 : "cp \x22".data = ['c', 'p', ' ', '\x22'] := by decide
    have h2 : "\x22 /tmp/input.wav".data =
        '\x22' :: ' ' :: "/tmp/input.wav".data := by decide
    simp [cpCmd, String.data_append, h1, h2]
  have h1 : shTokensAux ((cpCmd (String.mk fdata)).data) false false none =
      (shTokensAux (fdata ++ ('\x22' :: ' ' :: "/tmp/input.wav".data))
          true false (some ([], false))).map
        (fun ts => ShTok.word ['c', 'p'] false :: ts) := by
    rw [hdata]
    rfl
  have h2 := shTokensAux_quote_run fdata h [] false
    ('\x22' :: ' ' :: "/tmp/input.wav".data)
  have h3 : shTokensAux ('\x22' :: ' ' :: "/tmp/input.wav".data) true false
      (some ([] ++ fdata, false)) =
      some [ShTok.word fdata false, ShTok.word "/tmp/input.wav".data false] := by
    simp only [List.nil_append]
    rfl
  have htok : shTokensAux ((cpCmd (String.mk fdata)).data) false false none =
      some [ShTok.word ['c', 'p'] false, ShTok.word fdata false,
        ShTok.word "/tmp/input.wav".data false] := by
    rw [h1, h2, h3]
    rfl
  unfold shellParse
  rw [htok]
  rfl

/-- C10 counterexample: the path `$(touch /tmp/pwn)` contains no
double-quote character, yet the staging command built from it is not
the plain quoted copy of that file: `$` keeps its command-substitution
meaning inside double quotes, so the path word reaches the shell marked
for expansion, not literally. -/
theorem C10_counterexample :
    '\x22' ∉ ("$(touch /tmp/pwn)" : String).data ∧
    shellParse (cpCmd "$(touch /tmp/pwn)") =
      some [[("cp", false), ("$(touch /tmp/pwn)", true),
        ("/tmp/input.wav", false)]] ∧
    shellParse (cpCmd "$(touch /tmp/pwn)") ≠
      some [[("cp", false), ("$(touch /tmp/pwn)", false),
        ("/tmp/input.wav", false)]] := by
  decide

/-- C10 as amended: the staging command of line 36 is built by literal
string concatenation around the user-supplied path with no escaping.
For every path containing none of the four characters that stay special
to the shell inside double quotes (the double quote itself, `$`,
backtick, backslash), the executed command is exactly the single quoted
copy `cp <path> /tmp/input.wav` with every word literal.  Absence of
double quotes alone is not enough: a quote-free path containing `$`
undergoes command substitution instead of being copied literally.  And
for the path `x\x22; echo pwned; \x22y`, which contains a double quote,
the same construction parses as three separate commands, no longer a
copy at all: shell injection at the public interface. -/
theorem C10_shell_injection :
    (∀ file : String, (∀ c ∈ file.data, shSpecial c = false) →
      shellParse (cpCmd file) =
        some [[("cp", false), (file, false), ("/tmp/input.wav", false)]]) ∧
    shellParse (cpCmd "x\x22; echo pwned; \x22y") =
      some [[("cp", false), ("x", false)],
            [("echo", false), ("pwned", false)],
            [("y", false), ("/tmp/input.wav", false)]] :=
  ⟨shellParse_cp_literal, by decide⟩

theorem C10_shell_injection_witness :
    (∀ c ∈ ("concert.wav" : String).data, shSpecial c = false) ∧
    shellParse (cpCmd "concert.wav") =
      some [[("cp", false), ("concert.wav", false), ("/tmp/input.wav", false)]] :=
  ⟨by decide, C10_shell_injection.1 "concert.wav" (by decide)⟩

theorem C6_prepare_input_witness :
    (soxPrepareInput ⟨2, 16, 44100, 30, 0, fun _ _ => 1⟩).channels = 2 ∧
    (soxPrepareInput ⟨2, 16, 44100, 30, 0, fun _ _ => 1⟩).bits = 24 ∧
    (soxPrepareInput ⟨2, 16, 44100, 30, 0, fun _ _ => 1⟩).rate = 48000 ∧
    (soxPrepareInput ⟨2, 16, 44100, 30, 0, fun _ _ => 1⟩).dur = 8 := by
  have h := C6_prepare_input ⟨2, 16, 44100, 30, 0, fun _ _ => 1⟩ rfl
  exact ⟨h.1, h.2.1, h.2.2.1, h.2.2.2.1.trans (by norm_num [min_def])⟩

end Upmix
